import Mathlib

/-!
Verification of the httpreaderat repository: a shallow embedding of the
Content-Range header parser, the byte-store hierarchy and the range-reading
HTTP reader, together with theorems settling the specification claims.

Bytes are modelled as `Nat`, Go `int64` values as `Int`, Go strings as
`String`, readers (byte streams) as `List Nat`, and Go `error` results as
`Option` of an error enumeration.  A Go runtime panic (such as an
out-of-range slice index) is modelled by an explicit `panic` constructor of
the result type.
-/

namespace contentrange

/-- Error values produced by `contentrange.Parse`, mirroring the sentinel
errors and wrapped `strconv` failures of the Go source. -/
inductive CRErr where
  | unsupportedUnit
  | unsupportedField
  | parseErr
  | intFirst
  | intLast
  | intLength
  deriving DecidableEq

/-- Result of `contentrange.Parse`: a successful triple, an error together
with the triple of values the Go function returns alongside it, or a
runtime panic (out-of-range index). -/
inductive CRResult where
  | ok (first last length : Int)
  | err (first last length : Int) (e : CRErr)
  | panic
  deriving DecidableEq

/-- Model of Go `unicode.IsSpace`: the White_Space code points
(U+0009..U+000D, U+0020, U+0085, U+00A0, U+1680, U+2000..U+200A, U+2028,
U+2029, U+202F, U+205F, U+3000). -/
def goIsSpace (c : Char) : Bool :=
  let n := c.toNat
  (0x09 <= n && n <= 0x0d) || n == 0x20 || n == 0x85 || n == 0xa0 ||
  n == 0x1680 || (0x2000 <= n && n <= 0x200a) || n == 0x2028 || n == 0x2029 ||
  n == 0x202f || n == 0x205f || n == 0x3000

/-- The separator predicate passed to `strings.FieldsFunc` in `Parse`:
whitespace and the delimiters `-` and `/`. -/
def isSep (c : Char) : Bool :=
  goIsSpace c || c = '-' || c = '/'

/-- Accumulating worker for `fieldsFunc`. -/
def fieldsFuncAux : List Char → List Char → List (List Char)
  | [], acc => if acc.isEmpty then [] else [acc.reverse]
  | c :: rest, acc =>
    if isSep c then
      if acc.isEmpty then fieldsFuncAux rest []
      else acc.reverse :: fieldsFuncAux rest []
    else fieldsFuncAux rest (c :: acc)

/-- Model of `strings.FieldsFunc` with the `isSep` splitter: the maximal
runs of non-separator characters. -/
def fieldsFunc (s : List Char) : List (List Char) :=
  fieldsFuncAux s []

/-- Numeric value of a list of ASCII digits. -/
def digitsVal (l : List Char) : Nat :=
  l.foldl (fun acc c => acc * 10 + (c.toNat - 48)) 0

/-- Model of Go `strconv.ParseInt(s, 10, 64)`: an optional sign followed by
one or more ASCII digits, required to fit in a signed 64-bit integer;
`none` models a returned error. -/
def parseInt64 (s : List Char) : Option Int :=
  let signDigits : Bool × List Char :=
    match s with
    | '+' :: rest => (false, rest)
    | '-' :: rest => (true, rest)
    | _ => (false, s)
  if signDigits.2.isEmpty then none
  else if signDigits.2.all (fun c => c.isDigit) then
    let v : Int := if signDigits.1 then -(digitsVal signDigits.2 : Int)
                   else (digitsVal signDigits.2 : Int)
    if -(2 ^ 63 : Int) ≤ v ∧ v ≤ 2 ^ 63 - 1 then some v else none
  else none

/-- The dispatch of `contentrange.Parse` over the token list.  The Go
function immediately indexes `fields[0]`; when the input contained no
non-separator characters that index is out of range and the Go program
panics, modelled by `CRResult.panic`. -/
def parseFields : List String → CRResult
  | [] => .panic
  | f0 :: rest =>
    if f0 = "bytes" then
      match rest with
      | [f1, f2, f3] =>
        match parseInt64 f1.toList with
        | none => .err 0 0 0 .intFirst
        | some first =>
          match parseInt64 f2.toList with
          | none => .err 0 0 0 .intLast
          | some last =>
            if f3 = "*" then .ok first last (-1)
            else
              match parseInt64 f3.toList with
              | none => .err (-1) (-1) (-1) .intLength
              | some length => .ok first last length
      | [f1, f2] =>
        if f1 = "*" then
          match parseInt64 f2.toList with
          | none => .err 0 0 0 .intLength
          | some length => .ok (-1) (-1) length
        else .err (-1) (-1) (-1) .unsupportedField
      | _ => .err (-1) (-1) (-1) .parseErr
    else .err (-1) (-1) (-1) .unsupportedUnit

/-- Model of `contentrange.Parse`: split the input with
`strings.FieldsFunc` on whitespace, `-` and `/`, then decode the fields. -/
def Parse (str : String) : CRResult :=
  parseFields ((fieldsFunc str.toList).map (fun cs => String.mk cs))

end contentrange

namespace httpreaderat

/-- Go `error` values that the reader and the stores can return, one
constructor per distinct error of the source (package sentinels, `io.EOF`,
and the ad-hoc `errors.New` / `fmt.Errorf` values of `readAt`). -/
inductive GoErr where
  | eof
  | httpStatus
  | validationFailed
  | noRange
  | suddenlyStopped
  | noContentRange
  | parseWrap
  | differentRange
  | contentLengthMismatch
  | storeLimit
  | negativeOffset
  deriving DecidableEq

/-- Model of `bytes.Reader.ReadAt` over stored contents `data`: negative
offsets error, offsets at or past the end yield `io.EOF` with no bytes, and
otherwise `min plen (len - off)` bytes are copied with `io.EOF` reported on
a short read. -/
def bytesReadAt (data : List Nat) (plen : Nat) (off : Int) :
    List Nat × Option GoErr :=
  if off < 0 then ([], some .negativeOffset)
  else if (data.length : Int) ≤ off then ([], some .eof)
  else
    let chunk := (data.drop off.toNat).take plen
    (chunk, if chunk.length < plen then some .eof else none)

/-- Model of `os.File.ReadAt` over the temp file contents: as
`bytes.Reader.ReadAt` except that a zero-length read never reports
`io.EOF`. -/
def fileReadAt (data : List Nat) (plen : Nat) (off : Int) :
    List Nat × Option GoErr :=
  if off < 0 then ([], some .negativeOffset)
  else if plen = 0 then ([], none)
  else if (data.length : Int) ≤ off then ([], some .eof)
  else
    let chunk := (data.drop off.toNat).take plen
    (chunk, if chunk.length < plen then some .eof else none)

/-- State of a `Store`.  `memory` is `StoreMemory` (`rdr` is `nil` until the
first fill), `file` is `StoreFile` (the temp file contents, `nil` before a
fill and after `Close`), `limited` is `LimitedStore` with its active
reference `s` (`none` = nil, `some false` = primary, `some true` =
secondary), and `null` is a nil `Store` interface value (used for a missing
secondary). -/
inductive Store where
  | memory (rdr : Option (List Nat))
  | file (tmpfile : Option (List Nat))
  | limited (active : Option Bool) (primary : Store) (limit : Int)
      (secondary : Store)
  | null
  deriving DecidableEq

/-- Nesting depth of a store, the termination measure for `Store.ReadFrom`. -/
def Store.depth : Store → Nat
  | .memory _ => 0
  | .file _ => 0
  | .null => 0
  | .limited _ p _ sec => max p.depth sec.depth + 1

/-- Model of the `Close` methods: they discard the held bytes.
`LimitedStore.Close` closes the active store (if any) and clears the active
reference. -/
def Store.Close : Store → Store
  | .memory _ => .memory none
  | .file _ => .file none
  | .null => .null
  | .limited none p lim sec => .limited none p lim sec
  | .limited (some false) p lim sec => .limited none p.Close lim sec
  | .limited (some true) p lim sec => .limited none p lim sec.Close

/-- Closing a store does not change its nesting depth. -/
theorem Store.Close_depth (s : Store) : s.Close.depth = s.depth := by
  induction s with
  | memory _ => rfl
  | file _ => rfl
  | null => rfl
  | limited act p lim sec ihp ihs =>
    cases act with
    | none => rfl
    | some b => cases b <;> simp [Store.Close, Store.depth, ihp, ihs]

/-- Model of the `ReadAt` methods of the three store variants: an unfilled
or closed store returns no bytes and a nil error; otherwise reads are
delegated to the backing `bytes.Reader` / temp file, and `LimitedStore`
delegates to its active store. -/
def Store.ReadAt : Store → Nat → Int → List Nat × Option GoErr
  | .memory none, _, _ => ([], none)
  | .memory (some data), plen, off => bytesReadAt data plen off
  | .file none, _, _ => ([], none)
  | .file (some data), plen, off => fileReadAt data plen off
  | .null, _, _ => ([], none)
  | .limited none _ _ _, _, _ => ([], none)
  | .limited (some false) p _ _, plen, off => p.ReadAt plen off
  | .limited (some true) _ _ sec, plen, off => sec.ReadAt plen off

/-- Model of the `ReadFrom` methods (the fill operation), with the source
stream as a list of bytes.  `StoreMemory` and `StoreFile` store the whole
stream and report its length.  `LimitedStore.ReadFrom` closes the currently
active store, marks the primary active, fills it through an
`io.LimitReader` of `limit` bytes, and then: keeps the primary if fewer
than `limit` bytes arrived; fails with `ErrStoreLimit` if there is no
secondary; otherwise replays the primary's bytes (read back via a
`SectionReader`) concatenated with the rest of the source into the
secondary, closes the primary and marks the secondary active. -/
def Store.ReadFrom : Store → List Nat → Store × Int × Option GoErr
  | .memory _, src => (.memory (some src), (src.length : Int), none)
  | .file _, src => (.file (some src), (src.length : Int), none)
  | .null, _ => (.null, 0, none)
  | .limited act p lim sec, src =>
    let p1 := if act = some false then p.Close else p
    let sec1 := if act = some true then sec.Close else sec
    let lr := src.take lim.toNat
    let r1 := p1.ReadFrom lr
    if r1.2.1 < lim then (.limited (some false) r1.1 lim sec1, r1.2.1, r1.2.2)
    else if sec1 = .null then
      (.limited (some false) r1.1 lim sec1, r1.2.1, some .storeLimit)
    else
      let buffered := (r1.1.ReadAt r1.2.1.toNat 0).1
      let r2 := sec1.ReadFrom (buffered ++ src.drop lim.toNat)
      (.limited (some true) r1.1.Close lim r2.1, r2.2.1, r2.2.2)
  termination_by s _ => s.depth
  decreasing_by
  · simp only [Store.depth]
    split <;> simp [Store.Close_depth] <;> omega
  · simp only [Store.depth]
    split <;> simp [Store.Close_depth] <;> omega

/-- The file metadata snapshot tracked by the reader (`meta` struct). -/
structure Meta where
  size : Int
  lastModified : String
  etag : String
  contentType : String
  deriving DecidableEq

/-- An HTTP response as far as `readAt` observes it: status code, the four
headers it reads (`Header.Get` returns `""` for an absent header),
`ContentLength` (`-1` when unknown) and the body bytes. -/
structure Resp where
  statusCode : Nat
  contentRange : String
  lastModified : String
  etag : String
  contentType : String
  contentLength : Int
  body : List Nat
  deriving DecidableEq

/-- The `length` component of a parse result, as read by `getMeta` (which
ignores the returned error); `none` when `Parse` panics. -/
def crSize : contentrange.CRResult → Option Int
  | .ok _ _ len => some len
  | .err _ _ len _ => some len
  | .panic => none

/-- Model of `getMeta`: header snapshot plus the size, taken from
`ContentLength` on status 200 and from the parsed `Content-Range` total
length on status 206 (zero value otherwise).  `none` models the panic that
`contentrange.Parse` raises on a header with no tokens. -/
def getMeta (resp : Resp) : Option Meta :=
  let m0 : Meta :=
    ⟨0, resp.lastModified, resp.etag, resp.contentType⟩
  if resp.statusCode = 200 then some { m0 with size := resp.contentLength }
  else if resp.statusCode = 206 then
    if resp.contentRange = "" then some m0
    else
      match crSize (contentrange.Parse resp.contentRange) with
      | none => none
      | some len => some { m0 with size := len }
  else some m0

/-- The comparison inside `HTTPReaderAt.validate`: plain equality of size,
`Last-Modified` and `ETag` strings; any difference is the single
`ErrValidationFailed` outcome. -/
def compareMeta (a b : Meta) : Option GoErr :=
  if a.size ≠ b.size ∨ a.lastModified ≠ b.lastModified ∨ a.etag ≠ b.etag
  then some .validationFailed else none

/-- Mutable state of an `HTTPReaderAt`: the metadata snapshot, the backing
store (`Store.null` models a nil `bs`) and the fallback flag `usebs`. -/
structure RAState where
  meta : Meta
  bs : Store
  usebs : Bool
  deriving DecidableEq

/-- Outcome of one `readAt` call: the returned count `n`, the bytes placed
in the caller's buffer, the returned error, whether an HTTP request was
sent, and the state of the reader afterwards — or a runtime panic. -/
inductive ROut where
  | ok (n : Int) (data : List Nat) (err : Option GoErr) (sent : Bool)
      (st : RAState)
  | panicked
  deriving DecidableEq

/-- The part of `readAt` from the network request onwards, given the
effective (possibly clamped) buffer length `plenEff` and range
`reqFirst`-`reqLast`; `retEOF` records that clamping occurred so a full
copy must report `io.EOF`.  Mirrors the source: status check, metadata
initialization (probe) or validation, the status-200 fallback branch, and
the status-206 Content-Range checks followed by the body copy. -/
def readAtCore (st : RAState) (plenEff : Nat) (reqFirst reqLast : Int)
    (init retEOF : Bool) (resp : Resp) : ROut :=
  if resp.statusCode ≠ 200 ∧ resp.statusCode ≠ 206 then
    .ok 0 [] (some .httpStatus) true st
  else
    match getMeta resp with
    | none => .panicked
    | some m2 =>
      if init = false ∧ compareMeta st.meta m2 ≠ none then
        .ok 0 [] (some .validationFailed) true st
      else
        let st1 := if init = true then { st with meta := m2 } else st
        if resp.statusCode = 200 then
          if st1.bs = .null then .ok 0 [] (some .noRange) true st1
          else if init = false then
            .ok 0 [] (some .suddenlyStopped) true st1
          else
            let r1 := st1.bs.ReadFrom resp.body
            let st2 : RAState :=
              ⟨if resp.contentLength = -1 then { st1.meta with size := r1.2.1 }
                else st1.meta,
               r1.1, true⟩
            match r1.2.2 with
            | some e => .ok r1.2.1 [] (some e) true st2
            | none =>
              let r2 := r1.1.ReadAt plenEff reqFirst
              .ok (r2.1.length : Int) r2.1 r2.2 true st2
        else
          if resp.contentRange = "" then
            .ok 0 [] (some .noContentRange) true st1
          else
            match contentrange.Parse resp.contentRange with
            | .panic => .panicked
            | .err _ _ _ _ => .ok 0 [] (some .parseWrap) true st1
            | .ok first last _ =>
              if first ≠ reqFirst ∨ last > reqLast then
                .ok 0 [] (some .differentRange) true st1
              else if resp.contentLength ≠ last - first + 1 then
                .ok 0 [] (some .contentLengthMismatch) true st1
              else if resp.body.length < plenEff then
                .ok 0 [] (some .eof) true st1
              else
                .ok (plenEff : Int) (resp.body.take plenEff)
                  (if retEOF = true then some .eof else none) true st1

/-- Model of `HTTPReaderAt.readAt`: in fallback mode delegate to the store;
a zero-length buffer returns immediately; otherwise clamp the requested
range against a known size (returning plain `io.EOF` with no request when
the offset is at or past the end) and run `readAtCore` on the response the
transport produces. -/
def readAt (st : RAState) (plen : Nat) (off : Int) (init : Bool)
    (resp : Resp) : ROut :=
  if st.usebs = true then
    let r := st.bs.ReadAt plen off
    .ok (r.1.length : Int) r.1 r.2 false st
  else if plen = 0 then .ok 0 [] none false st
  else if init = false ∧ st.meta.size ≠ -1 ∧
      off + (plen : Int) - 1 > st.meta.size - 1 then
    if st.meta.size - 1 < off then .ok 0 [] (some .eof) false st
    else
      readAtCore st (st.meta.size - off).toNat off (st.meta.size - 1)
        init true resp
  else readAtCore st plen off (off + (plen : Int) - 1) init false resp

/-- Result of the constructor `New`. -/
inductive NRes where
  | ok (st : RAState)
  | fail (e : GoErr)
  | panicked
  deriving DecidableEq

/-- Model of `New`: a one-byte probe read at offset 0 with `initialize`
set; any probe error is a construction failure. -/
def New (bs : Store) (resp : Resp) : NRes :=
  match readAt ⟨⟨0, "", "", ""⟩, bs, false⟩ 1 0 true resp with
  | .panicked => .panicked
  | .ok _ _ (some e) _ _ => .fail e
  | .ok _ _ none _ st => .ok st

end httpreaderat

namespace htreaderat

/-- Model of `etagStrongMatch` from the legacy `htreaderat` package:
`a == b && a != "" && a[0] == '"'` — plain equality restricted to
non-empty strong validators (first byte a double quote). -/
def etagStrongMatch (a b : String) : Bool :=
  a == b && !(a == "") &&
    (match a.toList with
     | [] => false
     | c :: _ => c = '"')

end htreaderat

namespace contentrange

/-- On every error return of the token dispatch, the accompanying triple is
all `-1` or all `0`: no partially parsed field ever escapes. -/
theorem parseFields_err_shape (fields : List String) (f l n : Int)
    (e : CRErr) (h : parseFields fields = .err f l n e) :
    (f = -1 ∧ l = -1 ∧ n = -1) ∨ (f = 0 ∧ l = 0 ∧ n = 0) := by
  unfold parseFields at h
  repeat' split at h
  all_goals simp only [CRResult.err.injEq, reduceCtorEq] at h
  all_goals obtain ⟨h1, h2, h3, -⟩ := h
  all_goals omega

end contentrange

namespace httpreaderat

/-- A full-length read at offset 0 returns exactly the stored bytes. -/
theorem bytesReadAt_self (l : List Nat) : (bytesReadAt l l.length 0).1 = l := by
  cases l with
  | nil => rfl
  | cons b tl =>
    unfold bytesReadAt
    rw [if_neg (by omega), if_neg (by push_cast [List.length_cons]; omega)]
    simp

/-- For a non-negative offset the bytes returned by `bytesReadAt` are the
corresponding slice of the stored contents. -/
theorem bytesReadAt_data (data : List Nat) (plen : Nat) (off : Int)
    (h : 0 ≤ off) :
    (bytesReadAt data plen off).1 = (data.drop off.toNat).take plen := by
  unfold bytesReadAt
  split
  · omega
  · split
    · rename_i hle
      have : data.length ≤ off.toNat := by omega
      simp [List.drop_eq_nil_of_le this]
    · rfl

/-- On a 200 response `getMeta` never parses and captures `ContentLength`
as the size. -/
theorem getMeta_200 (resp : Resp) (hs : resp.statusCode = 200) :
    getMeta resp
      = some ⟨resp.contentLength, resp.lastModified, resp.etag,
          resp.contentType⟩ := by
  simp [getMeta, hs]

end httpreaderat

/-- Claim C8: the Content-Range parser maps "bytes 42-1233/1234" to
(42,1233,1234), "bytes 42-1233/*" to (42,1233,-1), and "bytes */1234" to
(-1,-1,1234); it returns an error for "banana 200-1000/67589" and for
"bytes 0/67589"; and on every error no partial result is produced: the
triple returned alongside an error is always all `-1` or all `0`, never a
mix of parsed and unparsed fields. -/
theorem c8_parse_roundtrips :
    contentrange.Parse "bytes 42-1233/1234" = .ok 42 1233 1234
    ∧ contentrange.Parse "bytes 42-1233/*" = .ok 42 1233 (-1)
    ∧ contentrange.Parse "bytes */1234" = .ok (-1) (-1) 1234
    ∧ contentrange.Parse "banana 200-1000/67589"
        = .err (-1) (-1) (-1) .unsupportedUnit
    ∧ contentrange.Parse "bytes 0/67589"
        = .err (-1) (-1) (-1) .unsupportedField
    ∧ (∀ (s : String) (f l n : Int) (e : contentrange.CRErr),
        contentrange.Parse s = .err f l n e →
        (f = -1 ∧ l = -1 ∧ n = -1) ∨ (f = 0 ∧ l = 0 ∧ n = 0)) := by
  refine ⟨by decide, by decide, by decide, by decide, by decide, ?_⟩
  intro s f l n e h
  exact contentrange.parseFields_err_shape _ f l n e h

/-- Claim C8 witness: the error-shape property applied at a concrete
erroneous input. -/
theorem c8_parse_roundtrips_witness :
    ((-1 : Int) = -1 ∧ (-1 : Int) = -1 ∧ (-1 : Int) = -1)
    ∨ ((-1 : Int) = 0 ∧ (-1 : Int) = 0 ∧ (-1 : Int) = 0) :=
  c8_parse_roundtrips.2.2.2.2.2 "banana 200-1000/67589" (-1) (-1) (-1)
    .unsupportedUnit (by decide)

/-- Claim C9: the claim that `contentrange.Parse` is total and returns the
unsupported-unit error on every input whose first token is not "bytes",
including inputs with no tokens at all, FAILS on the code: on the empty
string (and on any input consisting only of separators, such as "/") the
function indexes `fields[0]` of an empty slice and the program panics.
With at least one token the unsupported-unit error is returned as the
claim states. -/
theorem c9_parse_crash :
    contentrange.Parse "" = .panic
    ∧ contentrange.Parse "/" = .panic
    ∧ contentrange.Parse " - / " = .panic
    ∧ contentrange.Parse "banana" = .err (-1) (-1) (-1) .unsupportedUnit
    ∧ (∀ (s : String) (f0 : String) (rest : List String),
        (contentrange.fieldsFunc s.toList).map (fun cs => String.mk cs)
          = f0 :: rest →
        f0 ≠ "bytes" →
        contentrange.Parse s = .err (-1) (-1) (-1) .unsupportedUnit) := by
  refine ⟨by decide, by decide, by decide, by decide, ?_⟩
  intro s f0 rest hfields hne
  unfold contentrange.Parse
  rw [hfields]
  unfold contentrange.parseFields
  simp [hne]

/-- Claim C9 witness: the positive part applied at a concrete input with a
non-"bytes" unit token. -/
theorem c9_parse_crash_witness :
    contentrange.Parse "banana 0-0/1" = .err (-1) (-1) (-1) .unsupportedUnit :=
  c9_parse_crash.2.2.2.2 "banana 0-0/1" "banana" ["0", "0", "1"]
    (by decide) (by decide)

open httpreaderat in
/-- Claim C10: a store of any variant (memory, file, limited) that has
never been filled, or that has been closed, answers `ReadAt` for any
buffer length and any offset with zero bytes and a nil error — a short
read with no error, not the `io.ReaderAt` convention of a non-nil error
on a short read. -/
theorem c10_unfilled_or_closed_reads (plen : Nat) (off : Int)
    (s p sec : Store) (lim : Int) :
    Store.ReadAt (.memory none) plen off = ([], none)
    ∧ Store.ReadAt (.file none) plen off = ([], none)
    ∧ Store.ReadAt (.limited none p lim sec) plen off = ([], none)
    ∧ Store.ReadAt s.Close plen off = ([], none) := by
  refine ⟨rfl, rfl, rfl, ?_⟩
  cases s with
  | memory _ => rfl
  | file _ => rfl
  | null => rfl
  | limited act p' lim' sec' =>
    cases act with
    | none => rfl
    | some b => cases b <;> rfl

namespace httpreaderat

/-- In fallback mode `readAt` delegates to the store and sends no request. -/
theorem readAt_usebs (st : RAState) (plen : Nat) (off : Int) (init : Bool)
    (resp : Resp) (h : st.usebs = true) :
    readAt st plen off init resp
      = .ok ((st.bs.ReadAt plen off).1.length : Int) (st.bs.ReadAt plen off).1
          (st.bs.ReadAt plen off).2 false st := by
  simp [readAt, h]

/-- Outside fallback mode a zero-length read returns immediately. -/
theorem readAt_zero (st : RAState) (off : Int) (init : Bool) (resp : Resp)
    (h : st.usebs = false) :
    readAt st 0 off init resp = .ok 0 [] none false st := by
  simp [readAt, h]

/-- When no clamping applies, `readAt` runs the request/response core on
the unmodified range. -/
theorem readAt_noclamp (st : RAState) (plen : Nat) (off : Int) (init : Bool)
    (resp : Resp) (h1 : st.usebs = false) (h2 : plen ≠ 0)
    (h3 : st.meta.size = -1 ∨ off + (plen : Int) - 1 ≤ st.meta.size - 1) :
    readAt st plen off init resp
      = readAtCore st plen off (off + (plen : Int) - 1) init false resp := by
  unfold readAt
  rw [if_neg (by simp [h1]), if_neg h2, if_neg ?_]
  rintro ⟨-, hne, hgt⟩
  rcases h3 with h3 | h3
  · exact hne h3
  · omega

/-- A probe call never clamps. -/
theorem readAt_probe (st : RAState) (plen : Nat) (off : Int) (resp : Resp)
    (h1 : st.usebs = false) (h2 : plen ≠ 0) :
    readAt st plen off true resp
      = readAtCore st plen off (off + (plen : Int) - 1) true false resp := by
  unfold readAt
  rw [if_neg (by simp [h1]), if_neg h2, if_neg (by simp)]

/-- A non-probe read that straddles the known end is clamped to
`size - 1` and must report end-of-data on success. -/
theorem readAt_clamp (st : RAState) (plen : Nat) (off : Int) (resp : Resp)
    (h1 : st.usebs = false) (h2 : plen ≠ 0) (h3 : st.meta.size ≠ -1)
    (h4 : off < st.meta.size) (h5 : st.meta.size < off + (plen : Int)) :
    readAt st plen off false resp
      = readAtCore st (st.meta.size - off).toNat off (st.meta.size - 1)
          false true resp := by
  unfold readAt
  rw [if_neg (by simp [h1]), if_neg h2, if_pos ⟨rfl, h3, by omega⟩,
    if_neg (by omega)]

/-- A non-probe read at or past the known end returns `io.EOF` with no
bytes and no network request. -/
theorem readAt_pastEnd (st : RAState) (plen : Nat) (off : Int) (resp : Resp)
    (h1 : st.usebs = false) (h2 : plen ≠ 0) (h3 : st.meta.size ≠ -1)
    (h4 : st.meta.size ≤ off) :
    readAt st plen off false resp = .ok 0 [] (some .eof) false st := by
  unfold readAt
  rw [if_neg (by simp [h1]), if_neg h2, if_pos ⟨rfl, h3, by omega⟩,
    if_pos (by omega)]

/-- On a non-probe call whose derived metadata differs from the snapshot,
the core fails with `ErrValidationFailed` and zero bytes. -/
theorem readAtCore_validationFailed (st : RAState) (plenEff : Nat)
    (reqFirst reqLast : Int) (retEOF : Bool) (resp : Resp) (m2 : Meta)
    (hs : resp.statusCode = 200 ∨ resp.statusCode = 206)
    (hm : getMeta resp = some m2)
    (hv : compareMeta st.meta m2 ≠ none) :
    readAtCore st plenEff reqFirst reqLast false retEOF resp
      = .ok 0 [] (some .validationFailed) true st := by
  unfold readAtCore
  rw [if_neg (by rcases hs with h | h <;> simp [h]), hm]
  simp [hv]

/-- A 200 response on a non-probe call (validation passing) fails with
`ErrNoRange` or the fatal range-support-lost error, with zero bytes and an
unchanged state. -/
theorem readAtCore_200_fail (st : RAState) (plenEff : Nat)
    (reqFirst reqLast : Int) (retEOF : Bool) (resp : Resp) (m2 : Meta)
    (hs : resp.statusCode = 200)
    (hm : getMeta resp = some m2)
    (hv : compareMeta st.meta m2 = none) :
    readAtCore st plenEff reqFirst reqLast false retEOF resp
      = .ok 0 []
          (some (if st.bs = .null then GoErr.noRange
                 else GoErr.suddenlyStopped)) true st := by
  unfold readAtCore
  rw [if_neg (by simp [hs]), hm]
  by_cases hb : st.bs = .null <;> simp [hs, hv, hb]

/-- A 206 response without a Content-Range header (validation passing,
which requires the stored size to be the zero value) is a protocol error. -/
theorem readAtCore_206_noCR (st : RAState) (plenEff : Nat)
    (reqFirst reqLast : Int) (retEOF : Bool) (resp : Resp) (m2 : Meta)
    (hs : resp.statusCode = 206) (hm : getMeta resp = some m2)
    (hv : compareMeta st.meta m2 = none) (hcr : resp.contentRange = "") :
    readAtCore st plenEff reqFirst reqLast false retEOF resp
      = .ok 0 [] (some .noContentRange) true st := by
  unfold readAtCore
  rw [if_neg (by simp [hs]), hm]
  simp [hs, hv, hcr]

/-- A 206 response whose non-empty Content-Range has no tokens crashes the
call inside `contentrange.Parse` (reached through `getMeta`). -/
theorem readAtCore_206_panic (st : RAState) (plenEff : Nat)
    (reqFirst reqLast : Int) (init retEOF : Bool) (resp : Resp)
    (hs : resp.statusCode = 206) (hcr : resp.contentRange ≠ "")
    (hp : contentrange.Parse resp.contentRange = .panic) :
    readAtCore st plenEff reqFirst reqLast init retEOF resp = .panicked := by
  have hm : getMeta resp = none := by simp [getMeta, hs, hcr, hp, crSize]
  unfold readAtCore
  rw [if_neg (by simp [hs]), hm]

/-- A 206 response whose Content-Range parses with an error (validation
passing) is a protocol error with zero bytes. -/
theorem readAtCore_206_parseErr (st : RAState) (plenEff : Nat)
    (reqFirst reqLast : Int) (retEOF : Bool) (resp : Resp) (m2 : Meta)
    (f l L : Int) (e : contentrange.CRErr)
    (hs : resp.statusCode = 206) (hm : getMeta resp = some m2)
    (hv : compareMeta st.meta m2 = none) (hcr : resp.contentRange ≠ "")
    (hp : contentrange.Parse resp.contentRange = .err f l L e) :
    readAtCore st plenEff reqFirst reqLast false retEOF resp
      = .ok 0 [] (some .parseWrap) true st := by
  unfold readAtCore
  rw [if_neg (by simp [hs]), hm]
  simp [hs, hv, hcr, hp]

/-- A 206 response whose range starts at the wrong first offset or extends
past the requested last offset is a protocol error with zero bytes. -/
theorem readAtCore_206_badRange (st : RAState) (plenEff : Nat)
    (reqFirst reqLast : Int) (retEOF : Bool) (resp : Resp) (m2 : Meta)
    (first last L : Int)
    (hs : resp.statusCode = 206) (hm : getMeta resp = some m2)
    (hv : compareMeta st.meta m2 = none) (hcr : resp.contentRange ≠ "")
    (hp : contentrange.Parse resp.contentRange = .ok first last L)
    (hbad : first ≠ reqFirst ∨ last > reqLast) :
    readAtCore st plenEff reqFirst reqLast false retEOF resp
      = .ok 0 [] (some .differentRange) true st := by
  unfold readAtCore
  rw [if_neg (by simp [hs]), hm]
  rcases hbad with h | h <;> simp [hs, hv, hcr, hp, h]

/-- A 206 response whose declared `Content-Length` differs from the length
of the returned range is a protocol error with zero bytes, whatever the
body holds. -/
theorem readAtCore_206_badCL (st : RAState) (plenEff : Nat)
    (reqFirst reqLast : Int) (retEOF : Bool) (resp : Resp) (m2 : Meta)
    (last L : Int)
    (hs : resp.statusCode = 206) (hm : getMeta resp = some m2)
    (hv : compareMeta st.meta m2 = none) (hcr : resp.contentRange ≠ "")
    (hp : contentrange.Parse resp.contentRange = .ok reqFirst last L)
    (hl : last ≤ reqLast)
    (hcl : resp.contentLength ≠ last - reqFirst + 1) :
    readAtCore st plenEff reqFirst reqLast false retEOF resp
      = .ok 0 [] (some .contentLengthMismatch) true st := by
  unfold readAtCore
  rw [if_neg (by simp [hs]), hm]
  have hnl : ¬(last > reqLast) := by omega
  simp [hs, hv, hcr, hp, hnl, hcl]

/-- A 206 response passing every check with a sufficient body copies the
effective buffer length and reports end-of-data exactly when the request
was clamped. -/
theorem readAtCore_206_ok (st : RAState) (plenEff : Nat)
    (reqFirst reqLast : Int) (retEOF : Bool) (resp : Resp) (m2 : Meta)
    (last L : Int)
    (hs : resp.statusCode = 206) (hm : getMeta resp = some m2)
    (hv : compareMeta st.meta m2 = none) (hcr : resp.contentRange ≠ "")
    (hp : contentrange.Parse resp.contentRange = .ok reqFirst last L)
    (hl : last ≤ reqLast)
    (hcl : resp.contentLength = last - reqFirst + 1)
    (hb : plenEff ≤ resp.body.length) :
    readAtCore st plenEff reqFirst reqLast false retEOF resp
      = .ok (plenEff : Int) (resp.body.take plenEff)
          (if retEOF = true then some .eof else none) true st := by
  unfold readAtCore
  rw [if_neg (by simp [hs]), hm]
  have hnl : ¬(last > reqLast) := by omega
  have hnb : ¬(resp.body.length < plenEff) := by omega
  simp [hs, hv, hcr, hp, hnl, hcl, hnb]

end httpreaderat

open httpreaderat in
/-- Claim C2 counterexample: a `LimitedStore` (memory primary, limit 2, no
secondary) filled from a 3-byte source fails with `ErrStoreLimit`, but the
primary holding the first 2 bytes remains the active store, and a
subsequent `ReadAt` returns those 2 partially buffered bytes — not the
zero bytes the claim requires. -/
theorem c2_counterexample :
    Store.ReadFrom (.limited none (.memory none) 2 .null) [10, 20, 30]
      = (.limited (some false) (.memory (some [10, 20])) 2 .null, 2,
         some .storeLimit)
    ∧ Store.ReadAt (.limited (some false) (.memory (some [10, 20])) 2 .null)
        2 0
      = ([10, 20], none) := by
  constructor
  · simp [Store.ReadFrom]
  · decide

open httpreaderat in
/-- Claim C2 (amended): when a fill of a `LimitedStore` with a memory
primary and no secondary meets or exceeds the byte budget, the fill fails
with `ErrStoreLimit` while the primary — holding exactly the first `limit`
bytes of the source — remains the active store, so subsequent `ReadAt`
calls are served from that partial buffer (zero bytes come back only from
a never-filled or closed store). -/
theorem c2_amended (lim : Int) (src : List Nat) (plen : Nat) (off : Int)
    (h1 : 0 ≤ lim) (h2 : lim ≤ (src.length : Int)) :
    Store.ReadFrom (.limited none (.memory none) lim .null) src
      = (.limited (some false) (.memory (some (src.take lim.toNat))) lim
          .null, lim, some .storeLimit)
    ∧ Store.ReadAt
        (Store.ReadFrom (.limited none (.memory none) lim .null) src).1
        plen off
      = bytesReadAt (src.take lim.toNat) plen off := by
  have hlen : ((src.take lim.toNat).length : Int) = lim := by
    simp [List.length_take]
    omega
  have hlen2 : ((min (Int.toNat lim) src.length : Nat) : Int) = lim := by
    omega
  have key : Store.ReadFrom (.limited none (.memory none) lim .null) src
      = (.limited (some false) (.memory (some (src.take lim.toNat))) lim
          .null, lim, some .storeLimit) := by
    simp only [Store.ReadFrom]
    simp [Store.ReadFrom, hlen, hlen2]
  refine ⟨key, ?_⟩
  rw [key]
  rfl

open httpreaderat in
/-- Claim C2 amended witness: the amended statement at limit 2, source
[10, 20, 30], and a read of 2 bytes at offset 0. -/
theorem c2_amended_witness :
    Store.ReadAt
      (Store.ReadFrom (.limited none (.memory none) 2 .null) [10, 20, 30]).1
      2 0
    = bytesReadAt ([10, 20, 30].take (Int.toNat 2)) 2 0 :=
  (c2_amended 2 [10, 20, 30] 2 0 (by decide) (by decide)).2

open httpreaderat in
/-- Claim C3 counterexample: a source holding exactly `limit` bytes is
exhausted within the budget, yet the fill does not keep the primary as a
successful active store: with no secondary it fails with `ErrStoreLimit`,
and with a secondary it migrates the bytes and closes the primary — in
both cases contradicting the claim that migration or failure happens only
when bytes remain unread. -/
theorem c3_counterexample :
    Store.ReadFrom (.limited none (.memory none) 2 .null) [10, 20]
      = (.limited (some false) (.memory (some [10, 20])) 2 .null, 2,
         some .storeLimit)
    ∧ Store.ReadFrom (.limited none (.memory none) 2 (.file none)) [10, 20]
      = (.limited (some true) (.memory none) 2 (.file (some [10, 20])), 2,
         none) := by
  constructor <;>
    simp [Store.ReadFrom, Store.ReadAt, Store.Close, bytesReadAt]

open httpreaderat in
/-- Claim C3 (amended): for a fill of a `LimitedStore` with a memory
primary, at most `limit` bytes of the source enter the primary; if the
source holds strictly fewer than `limit` bytes the primary is kept as the
active store with all bytes readable there; if the source holds `limit` or
more bytes (the budget is consumed, even with nothing left unread) the
fill fails with `ErrStoreLimit` when no secondary is configured, and
otherwise refills the secondary with the primary's bytes concatenated with
the remaining source — exactly the original source — closes the primary
and makes the secondary active. -/
theorem c3_amended :
    (∀ (lim : Int) (src : List Nat) (sec : Store) (plen : Nat) (off : Int),
      0 ≤ lim → (src.length : Int) < lim →
      Store.ReadFrom (.limited none (.memory none) lim sec) src
        = (.limited (some false) (.memory (some src)) lim sec,
           (src.length : Int), none)
      ∧ Store.ReadAt (.limited (some false) (.memory (some src)) lim sec)
          plen off
        = bytesReadAt src plen off)
    ∧ (∀ (lim : Int) (src : List Nat), 0 ≤ lim → lim ≤ (src.length : Int) →
      Store.ReadFrom (.limited none (.memory none) lim .null) src
        = (.limited (some false) (.memory (some (src.take lim.toNat))) lim
            .null, lim, some .storeLimit))
    ∧ (∀ (lim : Int) (src : List Nat) (sec : Store), 0 ≤ lim →
        lim ≤ (src.length : Int) → sec ≠ .null →
      Store.ReadFrom (.limited none (.memory none) lim sec) src
        = (.limited (some true) (.memory none) lim (sec.ReadFrom src).1,
           (sec.ReadFrom src).2.1, (sec.ReadFrom src).2.2)) := by
  refine ⟨?_, ?_, ?_⟩
  · intro lim src sec plen off h1 h2
    have htake : src.take lim.toNat = src :=
      List.take_of_length_le (by omega)
    constructor
    · simp only [Store.ReadFrom]
      simp [Store.ReadFrom, htake, h2]
    · rfl
  · intro lim src h1 h2
    have hlen : ((src.take lim.toNat).length : Int) = lim := by
      simp [List.length_take]
      omega
    have hlen2 : ((min (Int.toNat lim) src.length : Nat) : Int) = lim := by
      omega
    simp only [Store.ReadFrom]
    simp [Store.ReadFrom, hlen, hlen2]
  · intro lim src sec h1 h2 hsec
    have hlen : ((src.take lim.toNat).length : Int) = lim := by
      simp [List.length_take]
      omega
    have hlen2 : ((min (Int.toNat lim) src.length : Nat) : Int) = lim := by
      omega
    have hlen3 : (src.take lim.toNat).length = lim.toNat := by
      simp [List.length_take]
      omega
    have hbuf : (bytesReadAt (src.take lim.toNat) lim.toNat 0).1
        = src.take lim.toNat := by
      have h := bytesReadAt_self (src.take lim.toNat)
      rwa [hlen3] at h
    simp only [Store.ReadFrom]
    simp [Store.ReadFrom, Store.ReadAt, Store.Close, hlen, hlen2, hsec,
      hbuf, List.take_append_drop]

open httpreaderat in
/-- Claim C3 amended witness: the three amended cases at concrete inputs
(limit 3 with a 2-byte source; limit 2 with 2- and 3-byte sources). -/
theorem c3_amended_witness :
    (Store.ReadFrom (.limited none (.memory none) 3 (.file none)) [10, 20]
      = (.limited (some false) (.memory (some [10, 20])) 3 (.file none), 2,
         none))
    ∧ (Store.ReadFrom (.limited none (.memory none) 2 .null) [10, 20]
      = (.limited (some false)
          (.memory (some ([10, 20].take (Int.toNat 2)))) 2 .null, 2,
         some .storeLimit))
    ∧ (Store.ReadFrom (.limited none (.memory none) 2 (.file none))
        [10, 20, 30]
      = (.limited (some true) (.memory none) 2
          ((Store.file none).ReadFrom [10, 20, 30]).1,
         ((Store.file none).ReadFrom [10, 20, 30]).2.1,
         ((Store.file none).ReadFrom [10, 20, 30]).2.2)) :=
  ⟨by
    have h := (c3_amended.1 3 [10, 20] (.file none) 1 0 (by decide)
      (by decide)).1
    simpa using h,
   (c3_amended.2.1 2 [10, 20] (by decide) (by decide)),
   (c3_amended.2.2 2 [10, 20, 30] (.file none) (by decide) (by decide)
     (by decide))⟩

open httpreaderat in
/-- Claim C1 counterexample: a non-probe `ReadAt` whose stored and
response entity tags are the identical weak validator `W/"v1"` succeeds
with the requested byte, although under the claimed strong-validator
policy a weak tag is never comparable and the call would have to fail with
`ErrValidationFailed`. -/
theorem c1_counterexample :
    readAt ⟨⟨1, "x", "W/\"v1\"", "t"⟩, .null, false⟩ 1 0 false
      ⟨206, "bytes 0-0/1", "x", "W/\"v1\"", "t", 1, [7]⟩
    = .ok 1 [7] none true ⟨⟨1, "x", "W/\"v1\"", "t"⟩, .null, false⟩ := by
  decide

open httpreaderat in
/-- Claim C1 (amended): on every non-probe `ReadAt`, the metadata
comparison of `httpreaderat` uses plain string equality on the entity tag
(empty and weak tags compare equal when textually identical); any
difference of size, lastModified or etag is reported as the single
`ErrValidationFailed` outcome of the call.  The strong-validator policy
the claim describes — an empty tag never matches, only strings starting
with a double quote are comparable, strong tags match by equality — is
implemented only by `etagStrongMatch` in the legacy `htreaderat`
package. -/
theorem c1_amended :
    (∀ a b : Meta, compareMeta a b = none
      ↔ (a.size = b.size ∧ a.lastModified = b.lastModified
          ∧ a.etag = b.etag))
    ∧ (∀ a b : Meta, compareMeta a b = none
        ∨ compareMeta a b = some .validationFailed)
    ∧ (∀ (st : RAState) (resp : Resp) (plen : Nat) (off : Int) (m2 : Meta),
        st.usebs = false → plen ≠ 0 →
        (st.meta.size = -1 ∨ off < st.meta.size) →
        (resp.statusCode = 200 ∨ resp.statusCode = 206) →
        getMeta resp = some m2 →
        compareMeta st.meta m2 ≠ none →
        readAt st plen off false resp
          = .ok 0 [] (some .validationFailed) true st)
    ∧ (∀ a b : String, htreaderat.etagStrongMatch a b = true
        ↔ (a = b ∧ a ≠ "" ∧ a.toList.head? = some '"')) := by
  refine ⟨?_, ?_, ?_, ?_⟩
  · intro a b
    by_cases h1 : a.size = b.size <;>
      by_cases h2 : a.lastModified = b.lastModified <;>
        by_cases h3 : a.etag = b.etag <;>
          simp [compareMeta, h1, h2, h3]
  · intro a b
    unfold compareMeta
    split <;> simp
  · intro st resp plen off m2 h1 h2 h3 hs hm hv
    by_cases hc : st.meta.size ≠ -1 ∧ st.meta.size < off + (plen : Int)
    · have hsz : st.meta.size ≠ -1 := hc.1
      have hoff : off < st.meta.size := by
        rcases h3 with h | h
        · exact absurd h hsz
        · exact h
      rw [readAt_clamp st plen off resp h1 h2 hsz hoff hc.2]
      exact readAtCore_validationFailed _ _ _ _ _ _ _ hs hm hv
    · push_neg at hc
      rw [readAt_noclamp st plen off false resp h1 h2 ?_]
      · exact readAtCore_validationFailed _ _ _ _ _ _ _ hs hm hv
      · by_cases hsz : st.meta.size = -1
        · exact Or.inl hsz
        · exact Or.inr (by have := hc hsz; omega)
  · intro a b
    by_cases hae : a = ""
    · subst hae
      simp [htreaderat.etagStrongMatch]
    · cases htl : a.data with
      | nil => simp [htreaderat.etagStrongMatch, String.toList, htl, hae]
      | cons c cs =>
        simp [htreaderat.etagStrongMatch, String.toList, htl, hae]

open httpreaderat in
/-- Claim C1 amended witness: a non-probe read whose response carries a
different `Last-Modified` than the snapshot fails with
`ErrValidationFailed`, via the amended theorem. -/
theorem c1_amended_witness :
    readAt ⟨⟨1, "x", "", ""⟩, .null, false⟩ 1 0 false
      ⟨206, "bytes 0-0/1", "y", "", "", 1, [7]⟩
    = .ok 0 [] (some .validationFailed) true ⟨⟨1, "x", "", ""⟩, .null, false⟩ :=
  c1_amended.2.2.1 ⟨⟨1, "x", "", ""⟩, .null, false⟩
    ⟨206, "bytes 0-0/1", "y", "", "", 1, [7]⟩ 1 0 ⟨1, "y", "", ""⟩
    rfl (by decide) (by decide) (by decide) (by decide) (by decide)

open httpreaderat in
/-- Claim C7 counterexample: after a probe that buffered the one-byte
resource into the store (fallback mode), a `ReadAt` with a zero-length
buffer at offset 1 is delegated to the store before the zero-length check
and returns `io.EOF` — not the error-free result the claim requires for
every state and offset. -/
theorem c7_counterexample :
    New (.memory none) ⟨200, "", "", "", "", 1, [17]⟩
      = .ok ⟨⟨1, "", "", ""⟩, .memory (some [17]), true⟩
    ∧ readAt ⟨⟨1, "", "", ""⟩, .memory (some [17]), true⟩ 0 1 false
        ⟨200, "", "", "", "", 1, [17]⟩
      = .ok 0 [] (some .eof) false
          ⟨⟨1, "", "", ""⟩, .memory (some [17]), true⟩ := by
  constructor
  · simp [New, readAt, readAtCore, getMeta, crSize, Store.ReadFrom,
      Store.ReadAt, bytesReadAt]
  · decide

open httpreaderat in
/-- Claim C7 (amended): outside fallback mode a zero-length `ReadAt`
returns immediately with no bytes, no error and no network request, for
every state and offset; in fallback mode the call (zero-length included)
is delegated to the store's `ReadAt` before the zero-length check, so it
returns whatever the store returns — `io.EOF` when the offset is at or
past the buffered size. -/
theorem c7_amended :
    (∀ (st : RAState) (off : Int) (init : Bool) (resp : Resp),
      st.usebs = false →
      readAt st 0 off init resp = .ok 0 [] none false st)
    ∧ (∀ (st : RAState) (plen : Nat) (off : Int) (init : Bool) (resp : Resp),
      st.usebs = true →
      readAt st plen off init resp
        = .ok ((st.bs.ReadAt plen off).1.length : Int)
            (st.bs.ReadAt plen off).1 (st.bs.ReadAt plen off).2 false st) :=
  ⟨fun st off init resp h => readAt_zero st off init resp h,
   fun st plen off init resp h => readAt_usebs st plen off init resp h⟩

open httpreaderat in
/-- Claim C7 amended witness: the amended statement at a concrete
non-fallback state and a concrete fallback state. -/
theorem c7_amended_witness :
    readAt ⟨⟨5, "", "", ""⟩, .null, false⟩ 0 3 false
      ⟨200, "", "", "", "", 0, []⟩
      = .ok 0 [] none false ⟨⟨5, "", "", ""⟩, .null, false⟩
    ∧ readAt ⟨⟨1, "", "", ""⟩, .memory (some [17]), true⟩ 0 1 false
        ⟨200, "", "", "", "", 0, []⟩
      = .ok (((Store.memory (some [17])).ReadAt 0 1).1.length : Int)
          ((Store.memory (some [17])).ReadAt 0 1).1
          ((Store.memory (some [17])).ReadAt 0 1).2 false
          ⟨⟨1, "", "", ""⟩, .memory (some [17]), true⟩ :=
  ⟨c7_amended.1 ⟨⟨5, "", "", ""⟩, .null, false⟩ 3 false
      ⟨200, "", "", "", "", 0, []⟩ rfl,
   c7_amended.2 ⟨⟨1, "", "", ""⟩, .memory (some [17]), true⟩ 0 1 false
      ⟨200, "", "", "", "", 0, []⟩ rfl⟩

namespace httpreaderat

/-- Any non-probe read that is not cut short by the past-the-end shortcut
reaches the request/response core with some effective parameters. -/
theorem readAt_dispatch (st : RAState) (plen : Nat) (off : Int)
    (resp : Resp) (h1 : st.usebs = false) (h2 : plen ≠ 0)
    (h3 : st.meta.size = -1 ∨ off < st.meta.size) :
    ∃ plenEff reqLast retEOF,
      readAt st plen off false resp
        = readAtCore st plenEff off reqLast false retEOF resp := by
  by_cases hc : st.meta.size ≠ -1 ∧ st.meta.size < off + (plen : Int)
  · refine ⟨_, _, _, readAt_clamp st plen off resp h1 h2 hc.1 ?_ hc.2⟩
    rcases h3 with h | h
    · exact absurd h hc.1
    · exact h
  · push_neg at hc
    refine ⟨_, _, _, readAt_noclamp st plen off false resp h1 h2 ?_⟩
    by_cases hsz : st.meta.size = -1
    · exact Or.inl hsz
    · exact Or.inr (by have := hc hsz; omega)

/-- The same dispatch with the effective parameters exposed: the core runs
on the clamped window `reqLast = size - 1` exactly when the request
straddles a known end, and on the requested window otherwise. -/
theorem readAt_dispatch_eq (st : RAState) (plen : Nat) (off : Int)
    (resp : Resp) (h1 : st.usebs = false) (h2 : plen ≠ 0)
    (h3 : st.meta.size = -1 ∨ off < st.meta.size) :
    readAt st plen off false resp
      = if st.meta.size ≠ -1 ∧ st.meta.size < off + (plen : Int)
        then readAtCore st (st.meta.size - off).toNat off
          (st.meta.size - 1) false true resp
        else readAtCore st plen off (off + (plen : Int) - 1) false
          false resp := by
  by_cases hc : st.meta.size ≠ -1 ∧ st.meta.size < off + (plen : Int)
  · rw [if_pos hc]
    have hoff : off < st.meta.size := by
      rcases h3 with h | h
      · exact absurd h hc.1
      · exact h
    exact readAt_clamp st plen off resp h1 h2 hc.1 hoff hc.2
  · rw [if_neg hc]
    push_neg at hc
    refine readAt_noclamp st plen off false resp h1 h2 ?_
    by_cases hsz : st.meta.size = -1
    · exact Or.inl hsz
    · exact Or.inr (by have := hc hsz; omega)

end httpreaderat

open httpreaderat in
/-- Claim C4: for a non-fallback, non-probe `ReadAt` with a non-empty
buffer and a known size: an offset at or past the size returns zero bytes
with `io.EOF` and no network request; a request straddling the end is
clamped to end at `size - 1`, and when every 206 check passes and the body
covers the clamped length, the call returns the clamped number of bytes
(`size - offset`) together with `io.EOF` instead of a plain success — in
neither case a protocol error. -/
theorem c4_clamping :
    (∀ (st : RAState) (plen : Nat) (off : Int) (resp : Resp),
      st.usebs = false → plen ≠ 0 → st.meta.size ≠ -1 →
      st.meta.size ≤ off →
      readAt st plen off false resp = .ok 0 [] (some .eof) false st)
    ∧ (∀ (st : RAState) (plen : Nat) (off last L : Int) (resp : Resp)
        (m2 : Meta),
      st.usebs = false → plen ≠ 0 → st.meta.size ≠ -1 →
      off < st.meta.size → st.meta.size < off + (plen : Int) →
      resp.statusCode = 206 →
      getMeta resp = some m2 → compareMeta st.meta m2 = none →
      resp.contentRange ≠ "" →
      contentrange.Parse resp.contentRange = .ok off last L →
      last ≤ st.meta.size - 1 →
      resp.contentLength = last - off + 1 →
      (st.meta.size - off).toNat ≤ resp.body.length →
      readAt st plen off false resp
        = .ok (((st.meta.size - off).toNat : Nat) : Int)
            (resp.body.take (st.meta.size - off).toNat) (some .eof)
            true st) := by
  constructor
  · intro st plen off resp h1 h2 h3 h4
    exact readAt_pastEnd st plen off resp h1 h2 h3 h4
  · intro st plen off last L resp m2 h1 h2 h3 h4 h5 hs hm hv hcr hp hl
      hcl hb
    rw [readAt_clamp st plen off resp h1 h2 h3 h4 h5]
    have h := readAtCore_206_ok st (st.meta.size - off).toNat off
      (st.meta.size - 1) true resp m2 last L hs hm hv hcr hp hl hcl hb
    simpa using h

open httpreaderat in
/-- Claim C4 witness: both cases at concrete inputs — a read at offset 5
of a 2-byte resource, and a 2-byte read at offset 1 of a 2-byte resource
answered by a valid one-byte 206 response. -/
theorem c4_clamping_witness :
    readAt ⟨⟨2, "", "", ""⟩, .null, false⟩ 1 5 false
      ⟨206, "", "", "", "", 0, []⟩
      = .ok 0 [] (some .eof) false ⟨⟨2, "", "", ""⟩, .null, false⟩
    ∧ readAt ⟨⟨2, "L", "E", "T"⟩, .null, false⟩ 2 1 false
        ⟨206, "bytes 1-1/2", "L", "E", "T", 1, [9]⟩
      = .ok 1 [9] (some .eof) true ⟨⟨2, "L", "E", "T"⟩, .null, false⟩ := by
  constructor
  · exact c4_clamping.1 ⟨⟨2, "", "", ""⟩, .null, false⟩ 1 5
      ⟨206, "", "", "", "", 0, []⟩ rfl (by decide) (by decide) (by decide)
  · have h := c4_clamping.2 ⟨⟨2, "L", "E", "T"⟩, .null, false⟩ 2 1 1 2
      ⟨206, "bytes 1-1/2", "L", "E", "T", 1, [9]⟩ ⟨2, "L", "E", "T"⟩
      rfl (by decide) (by decide) (by decide) (by decide) (by decide)
      (by decide) (by decide) (by decide) (by decide) (by decide)
      (by decide) (by decide)
    simpa using h

open httpreaderat in
/-- Claim C5 counterexample: two non-probe `ReadAt` calls receiving a 206
response violate the claim as stated.  With the Content-Range header
absent, the call fails with `ErrValidationFailed` (the derived size is the
zero value, which differs from the stored size 5) — a validation error,
not the claimed protocol error.  With the header present but token-less
("/"), the call does not fail with a protocol error and zero bytes at
all: it panics inside `contentrange.Parse`. -/
theorem c5_counterexample :
    readAt ⟨⟨5, "", "", ""⟩, .null, false⟩ 1 0 false
      ⟨206, "", "", "", "", 1, [1]⟩
      = .ok 0 [] (some .validationFailed) true
          ⟨⟨5, "", "", ""⟩, .null, false⟩
    ∧ readAt ⟨⟨5, "", "", ""⟩, .null, false⟩ 1 0 false
        ⟨206, "/", "", "", "", 1, [1]⟩
      = .panicked :=
  ⟨by decide, by decide⟩

open httpreaderat in
/-- Claim C5 (amended): on a non-probe `ReadAt` receiving 206, metadata
validation runs first, so a missing Content-Range header fails with
`ErrValidationFailed` unless the derived zero size matches the snapshot,
in which case the missing header is the protocol error; a present header
whose token list is empty crashes the call inside `contentrange.Parse`; a
present header that parses with an error is a protocol error; a parsed
range whose first offset differs from the requested first or whose last
offset exceeds the (possibly clamped) requested last is a protocol error;
a declared content length different from `last - first + 1` is a protocol
error regardless of the body; every such returning failure carries zero
bytes. -/
theorem c5_amended :
    (∀ (st : RAState) (resp : Resp) (plen : Nat) (off : Int),
      st.usebs = false → plen ≠ 0 →
      (st.meta.size = -1 ∨ off < st.meta.size) →
      resp.statusCode = 206 → resp.contentRange = "" →
      compareMeta st.meta
        ⟨0, resp.lastModified, resp.etag, resp.contentType⟩ = none →
      readAt st plen off false resp
        = .ok 0 [] (some .noContentRange) true st)
    ∧ (∀ (st : RAState) (resp : Resp) (plen : Nat) (off : Int) (m2 : Meta),
      st.usebs = false → plen ≠ 0 →
      (st.meta.size = -1 ∨ off < st.meta.size) →
      (resp.statusCode = 200 ∨ resp.statusCode = 206) →
      getMeta resp = some m2 → compareMeta st.meta m2 ≠ none →
      readAt st plen off false resp
        = .ok 0 [] (some .validationFailed) true st)
    ∧ (∀ (st : RAState) (resp : Resp) (plen : Nat) (off : Int),
      st.usebs = false → plen ≠ 0 →
      (st.meta.size = -1 ∨ off < st.meta.size) →
      resp.statusCode = 206 → resp.contentRange ≠ "" →
      contentrange.Parse resp.contentRange = .panic →
      readAt st plen off false resp = .panicked)
    ∧ (∀ (st : RAState) (resp : Resp) (plen : Nat) (off : Int) (m2 : Meta)
        (f l L : Int) (e : contentrange.CRErr),
      st.usebs = false → plen ≠ 0 →
      (st.meta.size = -1 ∨ off < st.meta.size) →
      resp.statusCode = 206 → getMeta resp = some m2 →
      compareMeta st.meta m2 = none → resp.contentRange ≠ "" →
      contentrange.Parse resp.contentRange = .err f l L e →
      readAt st plen off false resp
        = .ok 0 [] (some .parseWrap) true st)
    ∧ (∀ (st : RAState) (resp : Resp) (plen : Nat) (off : Int) (m2 : Meta)
        (first last L : Int),
      st.usebs = false → plen ≠ 0 →
      (st.meta.size = -1 ∨ off < st.meta.size) →
      resp.statusCode = 206 → getMeta resp = some m2 →
      compareMeta st.meta m2 = none → resp.contentRange ≠ "" →
      contentrange.Parse resp.contentRange = .ok first last L →
      (first ≠ off ∨ last >
        (if st.meta.size ≠ -1 ∧ st.meta.size < off + (plen : Int)
         then st.meta.size - 1 else off + (plen : Int) - 1)) →
      readAt st plen off false resp
        = .ok 0 [] (some .differentRange) true st)
    ∧ (∀ (st : RAState) (resp : Resp) (plen : Nat) (off : Int) (m2 : Meta)
        (last L : Int),
      st.usebs = false → plen ≠ 0 →
      (st.meta.size = -1 ∨ off < st.meta.size) →
      resp.statusCode = 206 → getMeta resp = some m2 →
      compareMeta st.meta m2 = none → resp.contentRange ≠ "" →
      contentrange.Parse resp.contentRange = .ok off last L →
      last ≤ (if st.meta.size ≠ -1 ∧ st.meta.size < off + (plen : Int)
              then st.meta.size - 1 else off + (plen : Int) - 1) →
      resp.contentLength ≠ last - off + 1 →
      readAt st plen off false resp
        = .ok 0 [] (some .contentLengthMismatch) true st) := by
  refine ⟨?_, ?_, ?_, ?_, ?_, ?_⟩
  · intro st resp plen off h1 h2 h3 hs hcr hv
    obtain ⟨pe, rl, re, heq⟩ := readAt_dispatch st plen off resp h1 h2 h3
    rw [heq]
    have hm : getMeta resp
        = some ⟨0, resp.lastModified, resp.etag, resp.contentType⟩ := by
      simp [getMeta, hs, hcr]
    exact readAtCore_206_noCR st pe off rl re resp _ hs hm hv hcr
  · intro st resp plen off m2 h1 h2 h3 hs hm hv
    obtain ⟨pe, rl, re, heq⟩ := readAt_dispatch st plen off resp h1 h2 h3
    rw [heq]
    exact readAtCore_validationFailed st pe off rl re resp m2 hs hm hv
  · intro st resp plen off h1 h2 h3 hs hcr hp
    obtain ⟨pe, rl, re, heq⟩ := readAt_dispatch st plen off resp h1 h2 h3
    rw [heq]
    exact readAtCore_206_panic st pe off rl false re resp hs hcr hp
  · intro st resp plen off m2 f l L e h1 h2 h3 hs hm hv hcr hp
    obtain ⟨pe, rl, re, heq⟩ := readAt_dispatch st plen off resp h1 h2 h3
    rw [heq]
    exact readAtCore_206_parseErr st pe off rl re resp m2 f l L e hs hm
      hv hcr hp
  · intro st resp plen off m2 first last L h1 h2 h3 hs hm hv hcr hp hbad
    rw [readAt_dispatch_eq st plen off resp h1 h2 h3]
    by_cases hc : st.meta.size ≠ -1 ∧ st.meta.size < off + (plen : Int)
    · rw [if_pos hc]
      rw [if_pos hc] at hbad
      exact readAtCore_206_badRange st (st.meta.size - off).toNat off
        (st.meta.size - 1) true resp m2 first last L hs hm hv hcr hp hbad
    · rw [if_neg hc]
      rw [if_neg hc] at hbad
      exact readAtCore_206_badRange st plen off (off + (plen : Int) - 1)
        false resp m2 first last L hs hm hv hcr hp hbad
  · intro st resp plen off m2 last L h1 h2 h3 hs hm hv hcr hp hl hcl
    rw [readAt_dispatch_eq st plen off resp h1 h2 h3]
    by_cases hc : st.meta.size ≠ -1 ∧ st.meta.size < off + (plen : Int)
    · rw [if_pos hc]
      rw [if_pos hc] at hl
      exact readAtCore_206_badCL st (st.meta.size - off).toNat off
        (st.meta.size - 1) true resp m2 last L hs hm hv hcr hp hl hcl
    · rw [if_neg hc]
      rw [if_neg hc] at hl
      exact readAtCore_206_badCL st plen off (off + (plen : Int) - 1)
        false resp m2 last L hs hm hv hcr hp hl hcl

open httpreaderat in
/-- Claim C5 amended witness: the missing-header, crash, wrong-range and
content-length-mismatch cases at concrete inputs, the last two both for an
unclamped request and for a clamped one (a 3-byte read at offset 1 of a
2-byte resource, whose effective window ends at offset 1). -/
theorem c5_amended_witness :
    readAt ⟨⟨0, "", "", ""⟩, .null, false⟩ 1 (-1) false
      ⟨206, "", "", "", "", 1, [1]⟩
      = .ok 0 [] (some .noContentRange) true ⟨⟨0, "", "", ""⟩, .null, false⟩
    ∧ readAt ⟨⟨5, "", "", ""⟩, .null, false⟩ 1 0 false
        ⟨206, "/", "", "", "", 1, [1]⟩ = .panicked
    ∧ readAt ⟨⟨5, "", "", ""⟩, .null, false⟩ 1 0 false
        ⟨206, "bytes 1-1/5", "", "", "", 1, [1]⟩
      = .ok 0 [] (some .differentRange) true ⟨⟨5, "", "", ""⟩, .null, false⟩
    ∧ readAt ⟨⟨5, "", "", ""⟩, .null, false⟩ 1 0 false
        ⟨206, "bytes 0-0/5", "", "", "", 3, [1, 2, 3]⟩
      = .ok 0 [] (some .contentLengthMismatch) true
          ⟨⟨5, "", "", ""⟩, .null, false⟩
    ∧ readAt ⟨⟨2, "L", "E", "T"⟩, .null, false⟩ 3 1 false
        ⟨206, "bytes 1-2/2", "L", "E", "T", 2, [9, 9]⟩
      = .ok 0 [] (some .differentRange) true
          ⟨⟨2, "L", "E", "T"⟩, .null, false⟩
    ∧ readAt ⟨⟨2, "L", "E", "T"⟩, .null, false⟩ 3 1 false
        ⟨206, "bytes 1-1/2", "L", "E", "T", 5, [9, 9]⟩
      = .ok 0 [] (some .contentLengthMismatch) true
          ⟨⟨2, "L", "E", "T"⟩, .null, false⟩ :=
  ⟨c5_amended.1 ⟨⟨0, "", "", ""⟩, .null, false⟩ ⟨206, "", "", "", "", 1, [1]⟩
     1 (-1) rfl (by decide) (by decide) (by decide) (by decide) (by decide),
   c5_amended.2.2.1 ⟨⟨5, "", "", ""⟩, .null, false⟩
     ⟨206, "/", "", "", "", 1, [1]⟩ 1 0 rfl (by decide) (by decide)
     (by decide) (by decide) (by decide),
   c5_amended.2.2.2.2.1 ⟨⟨5, "", "", ""⟩, .null, false⟩
     ⟨206, "bytes 1-1/5", "", "", "", 1, [1]⟩ 1 0 ⟨5, "", "", ""⟩ 1 1 5
     rfl (by decide) (by decide) (by decide) (by decide) (by decide)
     (by decide) (by decide) (by decide),
   c5_amended.2.2.2.2.2 ⟨⟨5, "", "", ""⟩, .null, false⟩
     ⟨206, "bytes 0-0/5", "", "", "", 3, [1, 2, 3]⟩ 1 0 ⟨5, "", "", ""⟩ 0 5
     rfl (by decide) (by decide) (by decide) (by decide) (by decide)
     (by decide) (by decide) (by decide) (by decide),
   c5_amended.2.2.2.2.1 ⟨⟨2, "L", "E", "T"⟩, .null, false⟩
     ⟨206, "bytes 1-2/2", "L", "E", "T", 2, [9, 9]⟩ 3 1 ⟨2, "L", "E", "T"⟩
     1 2 2 rfl (by decide) (by decide) (by decide) (by decide) (by decide)
     (by decide) (by decide) (by decide),
   c5_amended.2.2.2.2.2 ⟨⟨2, "L", "E", "T"⟩, .null, false⟩
     ⟨206, "bytes 1-1/2", "L", "E", "T", 5, [9, 9]⟩ 3 1 ⟨2, "L", "E", "T"⟩
     1 2 rfl (by decide) (by decide) (by decide) (by decide) (by decide)
     (by decide) (by decide) (by decide) (by decide)⟩

open httpreaderat in
/-- Claim C6: a 200 response is legal only on the construction-time probe.
On the probe with no store, construction fails with `ErrNoRange`; on the
probe with a (memory) store, the whole body is streamed into the store,
the reader permanently enters fallback mode, and every later `ReadAt` is
served from the store with no network request, returning exactly the
corresponding slice of the original content; a 200 on any post-probe call
fails with zero bytes, an error, and an unchanged state — no recovery. -/
theorem c6_fallback :
    (∀ resp : Resp, resp.statusCode = 200 →
      New .null resp = .fail .noRange)
    ∧ (∀ resp : Resp, resp.statusCode = 200 → resp.body ≠ [] →
      New (.memory none) resp
        = .ok ⟨⟨if resp.contentLength = -1 then (resp.body.length : Int)
                 else resp.contentLength,
               resp.lastModified, resp.etag, resp.contentType⟩,
              .memory (some resp.body), true⟩
      ∧ (∀ (plen : Nat) (off : Int) (resp2 : Resp), 0 ≤ off →
          ∃ e, readAt
              ⟨⟨if resp.contentLength = -1 then (resp.body.length : Int)
                 else resp.contentLength,
               resp.lastModified, resp.etag, resp.contentType⟩,
               .memory (some resp.body), true⟩ plen off false resp2
            = .ok (((resp.body.drop off.toNat).take plen).length : Int)
                ((resp.body.drop off.toNat).take plen) e false
                ⟨⟨if resp.contentLength = -1 then (resp.body.length : Int)
                   else resp.contentLength,
                 resp.lastModified, resp.etag, resp.contentType⟩,
                 .memory (some resp.body), true⟩))
    ∧ (∀ (st : RAState) (resp : Resp) (plen : Nat) (off : Int),
      st.usebs = false → plen ≠ 0 →
      (st.meta.size = -1 ∨ off < st.meta.size) →
      resp.statusCode = 200 →
      ∃ e, readAt st plen off false resp = .ok 0 [] (some e) true st) := by
  refine ⟨?_, ?_, ?_⟩
  · intro resp hs
    unfold New
    rw [readAt_probe _ 1 0 resp rfl (by decide)]
    unfold readAtCore
    rw [if_neg (by simp [hs]), getMeta_200 resp hs]
    simp [hs]
  · intro resp hs hb
    obtain ⟨sc, cr, lm, et, ct, cl, body⟩ := resp
    simp only at hs hb
    subst hs
    obtain ⟨b, tl, rfl⟩ := List.exists_cons_of_ne_nil hb
    have hlen : ¬ (((b :: tl).length : Int) ≤ 0) := by
      push_cast [List.length_cons]
      omega
    have hlen2 : ¬ ((tl.length : Int) + 1 ≤ 0) := by
      omega
    constructor
    · unfold New
      rw [readAt_probe _ 1 0 _ rfl (by decide)]
      unfold readAtCore
      rw [if_neg (by simp), getMeta_200 _ rfl]
      by_cases hcl : cl = -1 <;>
        simp [Store.ReadFrom, Store.ReadAt, bytesReadAt, hcl, hlen, hlen2]
    · intro plen off resp2 hoff
      rw [readAt_usebs _ plen off false resp2 rfl]
      refine ⟨(bytesReadAt (b :: tl) plen off).2, ?_⟩
      have hdata : ((Store.memory (some (b :: tl))).ReadAt plen off).1
          = ((b :: tl).drop off.toNat).take plen :=
        bytesReadAt_data (b :: tl) plen off hoff
      rw [show ((Store.memory (some (b :: tl))).ReadAt plen off)
            = bytesReadAt (b :: tl) plen off from rfl]
      rw [bytesReadAt_data (b :: tl) plen off hoff]
  · intro st resp plen off h1 h2 h3 hs
    obtain ⟨pe, rl, re, heq⟩ := readAt_dispatch st plen off resp h1 h2 h3
    have hm := getMeta_200 resp hs
    by_cases hv : compareMeta st.meta
        ⟨resp.contentLength, resp.lastModified, resp.etag,
         resp.contentType⟩ = none
    · refine ⟨if st.bs = .null then .noRange else .suddenlyStopped, ?_⟩
      rw [heq]
      exact readAtCore_200_fail st pe off rl re resp _ hs hm hv
    · refine ⟨.validationFailed, ?_⟩
      rw [heq]
      exact readAtCore_validationFailed st pe off rl re resp _
        (Or.inl hs) hm hv

open httpreaderat in
/-- Claim C6 witness: the probe cases and the post-probe 200 case at
concrete inputs (a one-byte resource with body [17]). -/
theorem c6_fallback_witness :
    New .null ⟨200, "", "", "", "", 1, [17]⟩ = .fail .noRange
    ∧ New (.memory none) ⟨200, "", "", "", "", 1, [17]⟩
      = .ok ⟨⟨if (1 : Int) = -1 then (([17] : List Nat).length : Int) else 1,
             "", "", ""⟩, .memory (some [17]), true⟩
    ∧ (∃ e, readAt
          ⟨⟨if (1 : Int) = -1 then (([17] : List Nat).length : Int) else 1,
           "", "", ""⟩, .memory (some [17]), true⟩ 1 0 false
          ⟨200, "", "", "", "", 1, [17]⟩
        = .ok (((([17] : List Nat).drop (Int.toNat 0)).take 1).length : Int)
            ((([17] : List Nat).drop (Int.toNat 0)).take 1) e false
            ⟨⟨if (1 : Int) = -1 then (([17] : List Nat).length : Int) else 1,
             "", "", ""⟩, .memory (some [17]), true⟩)
    ∧ (∃ e, readAt ⟨⟨5, "", "", ""⟩, .null, false⟩ 1 0 false
          ⟨200, "", "", "", "", 1, [17]⟩
        = .ok 0 [] (some e) true ⟨⟨5, "", "", ""⟩, .null, false⟩) :=
  ⟨c6_fallback.1 ⟨200, "", "", "", "", 1, [17]⟩ rfl,
   (c6_fallback.2.1 ⟨200, "", "", "", "", 1, [17]⟩ rfl (by decide)).1,
   (c6_fallback.2.1 ⟨200, "", "", "", "", 1, [17]⟩ rfl (by decide)).2
     1 0 ⟨200, "", "", "", "", 1, [17]⟩ (by decide),
   c6_fallback.2.2 ⟨⟨5, "", "", ""⟩, .null, false⟩
     ⟨200, "", "", "", "", 1, [17]⟩ 1 0 rfl (by decide) (by decide) rfl⟩
